import Mathlib

/-!
# Hello World tool server (`apps/hello-world-binary/server/main.go`)

A shallow embedding of the two tool handlers of the server, `SayHello` and
`GetTime`, together with the parts of the Go standard library they call
(`fmt.Sprintf` for the verbs `%s` and `%d`, `time.Time.Format` for the two
layouts used, `time.Time.Unix`), followed by theorems about the handlers.

The clock read by `GetTime` (`time.Now()`) is an explicit argument `now`.
-/

/-! ## `fmt` -/

namespace fmt

/-- An operand of `Sprintf`: a Go `string` or a Go integer. -/
inductive Operand where
  | str (s : String)
  | int (i : Int)
  deriving DecidableEq, Repr

/-- The decimal digit loop shared by the integer printers: peel the last digit
of `n` onto `acc` until one digit is left.  `fuel` bounds the number of
iterations; `n + 1` is always enough. -/
def uintDigitsAux : Nat → Nat → List Char → List Char
  | 0, _, acc => acc
  | fuel + 1, n, acc =>
    if n < 10 then Char.ofNat (48 + n) :: acc
    else uintDigitsAux fuel (n / 10) (Char.ofNat (48 + n % 10) :: acc)

/-- The decimal digits of an unsigned integer, most significant first. -/
def uintDigits (n : Nat) : List Char := uintDigitsAux (n + 1) n []

/-- The verb `%d` on a signed integer: an optional `-` and the digits of the
magnitude. -/
def intDigits (i : Int) : List Char :=
  if i < 0 then '-' :: uintDigits i.natAbs else uintDigits i.natAbs

/-- The scanning loop of `Sprintf`.  The verbs `%s` (on a string operand) and
`%d` (on an integer operand) consume one operand each; every other character
of the format is copied.  These are the only verbs the server uses. -/
def sprintfAux : List Char → List Operand → List Char
  | '%' :: 's' :: rest, Operand.str s :: args => s.data ++ sprintfAux rest args
  | '%' :: 'd' :: rest, Operand.int i :: args => intDigits i ++ sprintfAux rest args
  | c :: rest, args => c :: sprintfAux rest args
  | [], _ => []

/-- Go `fmt.Sprintf(format, args...)`. -/
def Sprintf (format : String) (args : List Operand) : String :=
  ⟨sprintfAux format.data args⟩

end fmt

/-! ## `time` -/

namespace time

/-- Go `time.Time`, reduced to what `Unix` and `Format` read: the instant in
seconds since January 1, 1970 UTC, and the offset (seconds east of UTC) that
the time's location has at that instant.  Nanoseconds and the zone name do
not reach any output of the server. -/
structure Time where
  unixSec : Int
  offset : Int
  deriving DecidableEq, Repr

def secondsPerMinute : Nat := 60
def secondsPerHour : Nat := 60 * secondsPerMinute
def secondsPerDay : Nat := 24 * secondsPerHour
def daysPer400Years : Nat := 365 * 400 + 97
def daysPer100Years : Nat := 365 * 100 + 24
def daysPer4Years : Nat := 365 * 4 + 1

/-- The year of the zero of the absolute time scale, chosen by the library so
that it is 1 modulo 400. -/
def absoluteZeroYear : Int := -292277022399

def unixToInternal : Int :=
  (1969 * 365 + 1969 / 4 - 1969 / 100 + 1969 / 400) * 86400

/-- The library constant `-(absoluteZeroYear - 1) * 365.2425 * secondsPerDay`. -/
def internalToAbsolute : Int := 9223371966579724800

/-- Go `t.Unix()`. -/
def Time.Unix (t : Time) : Int := t.unixSec

/-- Go `t.abs()`: local seconds on the absolute scale, as a `uint64`. -/
def Time.abs (t : Time) : Nat :=
  ((t.unixSec + t.offset + (unixToInternal + internalToAbsolute)) % 2 ^ 64).toNat

/-- Go `isLeap`; `%` on Go integers truncates toward zero. -/
def isLeap (year : Int) : Bool :=
  year.tmod 4 == 0 && (year.tmod 100 != 0 || year.tmod 400 == 0)

/-- The table `daysBefore`: days in a non-leap year before each month. -/
def daysBefore : List Nat :=
  [0, 31, 31 + 28, 31 + 28 + 31, 31 + 28 + 31 + 30, 31 + 28 + 31 + 30 + 31,
   31 + 28 + 31 + 30 + 31 + 30, 31 + 28 + 31 + 30 + 31 + 30 + 31,
   31 + 28 + 31 + 30 + 31 + 30 + 31 + 31, 31 + 28 + 31 + 30 + 31 + 30 + 31 + 31 + 30,
   31 + 28 + 31 + 30 + 31 + 30 + 31 + 31 + 30 + 31,
   31 + 28 + 31 + 30 + 31 + 30 + 31 + 31 + 30 + 31 + 30,
   31 + 28 + 31 + 30 + 31 + 30 + 31 + 31 + 30 + 31 + 30 + 31]

/-- The results of `absDate`: year, month (January is 1), day of the month and
zero-based day of the year. -/
structure Date where
  year : Int
  month : Nat
  day : Nat
  yday : Nat
  deriving DecidableEq, Repr

/-- The tail of `absDate`: month and day of the month from the day of the
year with the leap day taken out.  The month is first estimated as if every
month had 31 days and then adjusted; `monthEnd` is the local `end` of the
library code. -/
def monthDay (year : Int) (yday : Nat) (day : Nat) : Date :=
  let month := day / 31
  let monthEnd := daysBefore.getD (month + 1) 0
  if day ≥ monthEnd then
    { year := year, month := month + 1 + 1, day := day - monthEnd + 1, yday := yday }
  else
    { year := year, month := month + 1, day := day - daysBefore.getD month 0 + 1,
      yday := yday }

/-- Go `absDate(abs, true)` (Go 1.23): cut the day count into 400-, 100-, 4- and
1-year cycles, then find the month. -/
def absDate (abs : Nat) : Date :=
  let d := abs / secondsPerDay
  let n := d / daysPer400Years
  let y := 400 * n
  let d := d - daysPer400Years * n
  let n := d / daysPer100Years
  let n := n - n >>> 2
  let y := y + 100 * n
  let d := d - daysPer100Years * n
  let n := d / daysPer4Years
  let y := y + 4 * n
  let d := d - daysPer4Years * n
  let n := d / 365
  let n := n - n >>> 2
  let y := y + n
  let d := d - 365 * n
  let year : Int := (y : Int) + absoluteZeroYear
  let yday := d
  if isLeap year then
    if yday > 31 + 29 - 1 then monthDay year yday (yday - 1)
    else if yday = 31 + 29 - 1 then { year := year, month := 2, day := 29, yday := yday }
    else monthDay year yday yday
  else monthDay year yday yday

/-- The results of `absClock`. -/
structure Clock where
  hour : Nat
  min : Nat
  sec : Nat
  deriving DecidableEq, Repr

/-- Go `absClock`. -/
def absClock (abs : Nat) : Clock :=
  let sec := abs % secondsPerDay
  let hour := sec / secondsPerHour
  let sec := sec - hour * secondsPerHour
  let min := sec / secondsPerMinute
  let sec := sec - min * secondsPerMinute
  { hour := hour, min := min, sec := sec }

/-- Go `t.Year()`. -/
def Time.Year (t : Time) : Int := (absDate t.abs).year

/-- Go `appendInt`: append the decimal form of `x`, zero-padded to `width`
digits after the sign. -/
def appendInt (b : List Char) (x : Int) (width : Nat) : List Char :=
  let b := if x < 0 then b ++ ['-'] else b
  let ds := fmt.uintDigits x.natAbs
  b ++ List.replicate (width - ds.length) '0' ++ ds

/-- Go `appendFormatRFC3339(b, false)`. -/
def appendFormatRFC3339 (t : Time) (b : List Char) : List Char :=
  let abs := t.abs
  let date := absDate abs
  let b := appendInt b date.year 4
  let b := b ++ ['-']
  let b := appendInt b date.month 2
  let b := b ++ ['-']
  let b := appendInt b date.day 2
  let b := b ++ ['T']
  let clock := absClock abs
  let b := appendInt b clock.hour 2
  let b := b ++ [':']
  let b := appendInt b clock.min 2
  let b := b ++ [':']
  let b := appendInt b clock.sec 2
  if t.offset = 0 then b ++ ['Z']
  else
    let zone := t.offset.tdiv 60
    let sign := if zone < 0 then '-' else '+'
    let zone := if zone < 0 then -zone else zone
    let b := b ++ [sign]
    let b := appendInt b (zone.tdiv 60) 2
    let b := b ++ [':']
    appendInt b (zone.tmod 60) 2

/-- Go `appendFormat` for the layout elements `2006`, `01`, `02`, `15`, `04`
and `05`; every other character of the layout is copied.  These are the
elements of the one layout the server passes to the general formatter. -/
def appendFormat (t : Time) (b : List Char) : List Char → List Char
  | '2' :: '0' :: '0' :: '6' :: rest =>
    appendFormat t (appendInt b (absDate t.abs).year 4) rest
  | '0' :: '1' :: rest => appendFormat t (appendInt b (absDate t.abs).month 2) rest
  | '0' :: '2' :: rest => appendFormat t (appendInt b (absDate t.abs).day 2) rest
  | '1' :: '5' :: rest => appendFormat t (appendInt b (absClock t.abs).hour 2) rest
  | '0' :: '4' :: rest => appendFormat t (appendInt b (absClock t.abs).min 2) rest
  | '0' :: '5' :: rest => appendFormat t (appendInt b (absClock t.abs).sec 2) rest
  | c :: rest => appendFormat t (b ++ [c]) rest
  | [] => b

/-- Go `time.RFC3339`. -/
def RFC3339 : String := "2006-01-02T15:04:05Z07:00"

/-- Go `t.Format(layout)`: the RFC 3339 layout has its own formatter, every
other layout goes through `appendFormat`. -/
def Time.Format (t : Time) (layout : String) : String :=
  if layout = RFC3339 then ⟨appendFormatRFC3339 t []⟩
  else ⟨appendFormat t [] layout.data⟩

end time

/-! ## `mcp` result types -/

namespace mcp

/-- Modelled from the spec: the framework type `mcp.TextContent`, one text
segment of a call result. -/
structure TextContent where
  Text : String
  deriving DecidableEq, Repr

/-- Modelled from the spec: the framework interface `mcp.Content`; text
segments are the only content the server builds. -/
inductive Content where
  | text (c : TextContent)
  deriving DecidableEq, Repr

/-- Modelled from the spec: the framework type `mcp.CallToolResultFor`, an
ordered sequence of content segments. -/
structure CallToolResultFor where
  Content : List Content
  deriving DecidableEq, Repr

/-- Modelled from the spec: the framework type `mcp.CallToolParamsFor`, the
decoded arguments of one call. -/
structure CallToolParamsFor (α : Type) where
  Arguments : α
  deriving DecidableEq, Repr

end mcp

/-! ## The handlers -/

/-- Parameters of the `say_hello` tool. -/
structure SayHelloParams where
  Name : String
  Language : String
  deriving DecidableEq, Repr

/-- Parameters of the `get_time` tool. -/
structure GetTimeParams where
  Format : String
  deriving DecidableEq, Repr

/-- The handler `SayHello`.  The Go pair `(result, error)` is an `Except`; the
context and session arguments are not read by the handler and are left out. -/
def SayHello (params : mcp.CallToolParamsFor SayHelloParams) :
    Except String mcp.CallToolResultFor :=
  let name := params.Arguments.Name
  let language := params.Arguments.Language
  let language := if language = "" then "japanese" else language
  let greeting :=
    match language with
    | "english" => fmt.Sprintf "Hello, %s!" [.str name]
    | _ => fmt.Sprintf "こんにちは、%sさん！" [.str name]
  .ok { Content := [.text { Text := greeting }] }

/-- The handler `GetTime`; `now` is the value of `time.Now()`. -/
def GetTime (now : time.Time) (params : mcp.CallToolParamsFor GetTimeParams) :
    Except String mcp.CallToolResultFor :=
  let format := params.Arguments.Format
  let format := if format = "" then "default" else format
  let timeStr :=
    match format with
    | "rfc3339" => now.Format time.RFC3339
    | "unix" => fmt.Sprintf "%d" [.int now.Unix]
    | _ => now.Format "2006-01-02 15:04:05"
  let result := fmt.Sprintf "現在時刻: %s" [.str timeStr]
  .ok { Content := [.text { Text := result }] }

/-! ## Vocabulary of the statements -/

/-- A greeting call with the given arguments; an absent `language` decodes to
the empty string. -/
def helloCall (name language : String) : mcp.CallToolParamsFor SayHelloParams :=
  { Arguments := { Name := name, Language := language } }

/-- A clock call with the given argument; an absent `format` decodes to the
empty string. -/
def timeCall (format : String) : mcp.CallToolParamsFor GetTimeParams :=
  { Arguments := { Format := format } }

/-- A successful result that holds exactly one text segment. -/
def oneText (text : String) : Except String mcp.CallToolResultFor :=
  .ok { Content := [.text { Text := text }] }

/-- The label `GetTime` puts in front of every rendering. -/
def timeLabel : String := "現在時刻: "

/-- The regular expression `^[0-9]+$`. -/
def isDecimal (s : List Char) : Bool :=
  !s.isEmpty && s.all Char.isDigit

/-- The number a digit string denotes. -/
def decimalValue (s : List Char) : Nat :=
  s.foldl (fun acc c => 10 * acc + (c.toNat - 48)) 0

/-- The form `YYYY-MM-DD HH:MM:SS`. -/
def isDateTime : List Char → Bool
  | [y1, y2, y3, y4, '-', m1, m2, '-', d1, d2, ' ', h1, h2, ':', n1, n2, ':', s1, s2] =>
    [y1, y2, y3, y4, m1, m2, d1, d2, h1, h2, n1, n2, s1, s2].all Char.isDigit
  | _ => false

/-- The form `YYYY-MM-DDTHH:MM:SS` followed by `Z` or by `+HH:MM` or `-HH:MM`. -/
def isRFC3339 : List Char → Bool
  | [y1, y2, y3, y4, '-', m1, m2, '-', d1, d2, 'T', h1, h2, ':', n1, n2, ':', s1, s2, 'Z'] =>
    [y1, y2, y3, y4, m1, m2, d1, d2, h1, h2, n1, n2, s1, s2].all Char.isDigit
  | [y1, y2, y3, y4, '-', m1, m2, '-', d1, d2, 'T', h1, h2, ':', n1, n2, ':', s1, s2,
      sign, zh1, zh2, ':', zm1, zm2] =>
    (sign == '+' || sign == '-') &&
      [y1, y2, y3, y4, m1, m2, d1, d2, h1, h2, n1, n2, s1, s2, zh1, zh2, zm1, zm2].all
        Char.isDigit
  | _ => false

/-- A two-digit zero-padded field. -/
def pad2 (n : Nat) : List Char :=
  [Char.ofNat (48 + n / 10), Char.ofNat (48 + n % 10)]

/-- A four-digit zero-padded field. -/
def pad4 (n : Nat) : List Char :=
  [Char.ofNat (48 + n / 1000), Char.ofNat (48 + n / 100 % 10),
    Char.ofNat (48 + n / 10 % 10), Char.ofNat (48 + n % 10)]

/-- The zero-padded local date and time of a clock reading, with `sep` between
the date and the time of day. -/
def dateTimeText (sep : Char) (t : time.Time) : List Char :=
  pad4 t.Year.toNat ++ '-' :: pad2 (time.absDate t.abs).month ++
    '-' :: pad2 (time.absDate t.abs).day ++ sep :: pad2 (time.absClock t.abs).hour ++
    ':' :: pad2 (time.absClock t.abs).min ++ ':' :: pad2 (time.absClock t.abs).sec

/-- The zone designator: `Z` for offset zero, else the sign and the offset in
hours and minutes, the seconds dropped. -/
def zoneText (offset : Int) : List Char :=
  if offset = 0 then ['Z']
  else
    (if offset.tdiv 60 < 0 then '-' else '+') ::
      pad2 ((offset.tdiv 60).natAbs / 60) ++ ':' :: pad2 ((offset.tdiv 60).natAbs % 60)

/-- Gregorian leap years, on the year field of a timestamp. -/
def leapYear (year : Nat) : Bool :=
  year % 4 == 0 && (year % 100 != 0 || year % 400 == 0)

/-- The number of days of a month (RFC 3339, section 5.7). -/
def daysIn (leap : Bool) (month : Nat) : Nat :=
  if month = 2 then (if leap then 29 else 28)
  else if month = 4 ∨ month = 6 ∨ month = 9 ∨ month = 11 then 30
  else 31

/-- A valid RFC 3339 timestamp without fractional seconds: the form of
`isRFC3339`, with month 01-12, a day that exists in that month of that year,
hour 00-23, minute 00-59, second 00-59, and a zone that is `Z` or an offset
with hour 00-23 and minute 00-59. -/
def isValidRFC3339 (s : List Char) : Bool :=
  let year := decimalValue (s.take 4)
  let month := decimalValue ((s.drop 5).take 2)
  let day := decimalValue ((s.drop 8).take 2)
  let hour := decimalValue ((s.drop 11).take 2)
  let minute := decimalValue ((s.drop 14).take 2)
  let second := decimalValue ((s.drop 17).take 2)
  let zone := s.drop 19
  isRFC3339 s && decide (1 ≤ month) && decide (month ≤ 12) && decide (1 ≤ day) &&
    decide (day ≤ daysIn (leapYear year) month) && decide (hour ≤ 23) &&
    decide (minute ≤ 59) && decide (second ≤ 59) &&
    (zone == ['Z'] ||
      (decide (decimalValue ((zone.drop 1).take 2) ≤ 23) &&
        decide (decimalValue ((zone.drop 4).take 2) ≤ 59)))

/-- The date and time fields of a clock reading are in calendar range. -/
def calendarRange (t : time.Time) : Prop :=
  1 ≤ (time.absDate t.abs).month ∧ (time.absDate t.abs).month ≤ 12 ∧
  1 ≤ (time.absDate t.abs).day ∧ (time.absDate t.abs).day ≤ 31 ∧
  (time.absClock t.abs).hour ≤ 23 ∧ (time.absClock t.abs).min ≤ 59 ∧
  (time.absClock t.abs).sec ≤ 59

/-! ## The greeting operation -/

theorem SayHello_english_eq (name : String) :
    SayHello (helloCall name "english") = oneText ("Hello, " ++ name ++ "!") := by
  rfl

theorem SayHello_absent_eq (name : String) :
    SayHello (helloCall name "") = oneText ("こんにちは、" ++ name ++ "さん！") := by
  rfl

theorem SayHello_other_eq (name language : String) (h : language ≠ "english") :
    SayHello (helloCall name language) = oneText ("こんにちは、" ++ name ++ "さん！") := by
  unfold SayHello helloCall
  by_cases he : language = ""
  · subst he; rfl
  · simp only [he, if_false]
    rfl

theorem SayHello_empty_name :
    SayHello (helloCall "" "") = oneText "こんにちは、さん！" := by
  rfl

theorem Sprintf_label (timeStr : String) :
    fmt.Sprintf "現在時刻: %s" [.str timeStr] = timeLabel ++ timeStr := by
  apply String.ext
  simp [fmt.Sprintf, fmt.sprintfAux, timeLabel]

theorem GetTime_rfc3339_eq (now : time.Time) :
    GetTime now (timeCall "rfc3339") = oneText (timeLabel ++ ⟨time.appendFormatRFC3339 now []⟩) := by
  unfold GetTime timeCall oneText
  simp only [Sprintf_label]
  simp [time.Time.Format]

theorem GetTime_unix_eq (now : time.Time) :
    GetTime now (timeCall "unix") = oneText (timeLabel ++ ⟨fmt.intDigits now.Unix⟩) := by
  unfold GetTime timeCall oneText
  simp only [Sprintf_label]
  simp [fmt.Sprintf, fmt.sprintfAux]

theorem GetTime_other_eq (now : time.Time) (format : String)
    (h1 : format ≠ "rfc3339") (h2 : format ≠ "unix") :
    GetTime now (timeCall format) =
      oneText (timeLabel ++ now.Format "2006-01-02 15:04:05") := by
  unfold GetTime timeCall oneText
  simp only [Sprintf_label]
  by_cases he : format = ""
  · subst he
    simp
  · simp only [he, if_false]

/-! ## Decimal digits -/

namespace fmt

theorem digit_isDigit (d : Nat) (h : d < 10) : (Char.ofNat (48 + d)).isDigit = true := by
  interval_cases d <;> rfl

theorem digit_toNat (d : Nat) (h : d < 10) : (Char.ofNat (48 + d)).toNat - 48 = d := by
  interval_cases d <;> rfl

theorem uintDigitsAux_acc (fuel : Nat) : ∀ (n : Nat) (acc : List Char),
    uintDigitsAux fuel n acc = uintDigitsAux fuel n [] ++ acc := by
  induction fuel with
  | zero => intro n acc; simp [uintDigitsAux]
  | succ fuel ih =>
    intro n acc
    unfold uintDigitsAux
    by_cases h : n < 10
    · simp [h]
    · simp only [h, if_false]
      rw [ih (n / 10) (Char.ofNat (48 + n % 10) :: acc), ih (n / 10) [Char.ofNat (48 + n % 10)]]
      simp

theorem uintDigitsAux_fuel (f₁ : Nat) : ∀ (n f₂ : Nat), n < f₁ → n < f₂ →
    uintDigitsAux f₁ n [] = uintDigitsAux f₂ n [] := by
  induction f₁ with
  | zero => intro n f₂ h; omega
  | succ f₁ ih =>
    intro n f₂ h₁ h₂
    obtain ⟨f₂, rfl⟩ : ∃ k, f₂ = k + 1 := ⟨f₂ - 1, by omega⟩
    unfold uintDigitsAux
    by_cases h : n < 10
    · simp [h]
    · simp only [h, if_false]
      rw [uintDigitsAux_acc f₁, uintDigitsAux_acc f₂, ih (n / 10) f₂ (by omega) (by omega)]

/-- The digit loop, as a recursion on the number. -/
theorem uintDigits_eq (n : Nat) :
    uintDigits n =
      if n < 10 then [Char.ofNat (48 + n)]
      else uintDigits (n / 10) ++ [Char.ofNat (48 + n % 10)] := by
  by_cases h : n < 10
  · simp [uintDigits, uintDigitsAux, h]
  · simp only [h, if_false]
    unfold uintDigits
    rw [uintDigitsAux, if_neg h, uintDigitsAux_acc,
      uintDigitsAux_fuel n (n / 10) (n / 10 + 1) (by omega) (by omega)]

theorem uintDigits_ne_nil (n : Nat) : uintDigits n ≠ [] := by
  rw [uintDigits_eq]
  split <;> simp

theorem uintDigits_isDigit (n : Nat) : ∀ c ∈ uintDigits n, c.isDigit = true := by
  induction n using Nat.strongRecOn with
  | _ n ih =>
    rw [uintDigits_eq]
    by_cases h : n < 10
    · simp only [h, if_true, List.mem_singleton]
      rintro c rfl
      exact digit_isDigit n h
    · simp only [h, if_false, List.mem_append, List.mem_singleton]
      rintro c (hc | rfl)
      · exact ih (n / 10) (by omega) c hc
      · exact digit_isDigit _ (Nat.mod_lt _ (by decide))

end fmt

theorem decimalValue_append (s : List Char) (c : Char) :
    decimalValue (s ++ [c]) = 10 * decimalValue s + (c.toNat - 48) := by
  simp [decimalValue]

theorem decimalValue_uintDigits (n : Nat) : decimalValue (fmt.uintDigits n) = n := by
  induction n using Nat.strongRecOn with
  | _ n ih =>
    rw [fmt.uintDigits_eq]
    by_cases h : n < 10
    · simp only [h, if_true]
      simp [decimalValue, fmt.digit_toNat n h]
    · simp only [h, if_false]
      rw [decimalValue_append, ih (n / 10) (by omega),
        fmt.digit_toNat _ (Nat.mod_lt _ (by decide))]
      omega

theorem isDecimal_uintDigits (n : Nat) : isDecimal (fmt.uintDigits n) = true := by
  have h1 := fmt.uintDigits_ne_nil n
  have h2 := fmt.uintDigits_isDigit n
  simp only [isDecimal, Bool.and_eq_true, Bool.not_eq_true', List.all_eq_true]
  refine ⟨?_, h2⟩
  cases hds : fmt.uintDigits n with
  | nil => exact absurd hds h1
  | cons a l => rfl

namespace fmt

theorem uintDigits_one (n : Nat) (h : n < 10) : uintDigits n = [Char.ofNat (48 + n)] := by
  rw [uintDigits_eq, if_pos h]

theorem uintDigits_two (n : Nat) (h₁ : 10 ≤ n) (h₂ : n < 100) :
    uintDigits n = [Char.ofNat (48 + n / 10), Char.ofNat (48 + n % 10)] := by
  rw [uintDigits_eq, if_neg (by omega), uintDigits_one (n / 10) (by omega)]
  rfl

theorem uintDigits_three (n : Nat) (h₁ : 100 ≤ n) (h₂ : n < 1000) :
    uintDigits n =
      [Char.ofNat (48 + n / 100), Char.ofNat (48 + n / 10 % 10), Char.ofNat (48 + n % 10)] := by
  rw [uintDigits_eq, if_neg (by omega), uintDigits_two (n / 10) (by omega) (by omega)]
  have e : n / 10 / 10 = n / 100 := by omega
  rw [e]
  rfl

theorem uintDigits_four (n : Nat) (h₁ : 1000 ≤ n) (h₂ : n < 10000) :
    uintDigits n =
      [Char.ofNat (48 + n / 1000), Char.ofNat (48 + n / 100 % 10),
        Char.ofNat (48 + n / 10 % 10), Char.ofNat (48 + n % 10)] := by
  rw [uintDigits_eq, if_neg (by omega), uintDigits_three (n / 10) (by omega) (by omega)]
  have e₁ : n / 10 / 100 = n / 1000 := by omega
  have e₂ : n / 10 / 10 % 10 = n / 100 % 10 := by omega
  rw [e₁, e₂]
  rfl

end fmt

namespace time

/-- A two-digit field. -/
theorem appendInt_two (b : List Char) (n : Nat) (h : n < 100) :
    appendInt b (n : Int) 2 = b ++ [Char.ofNat (48 + n / 10), Char.ofNat (48 + n % 10)] := by
  have hneg : ¬ ((n : Int) < 0) := by omega
  unfold appendInt
  simp only [hneg, if_false, Int.natAbs_ofNat]
  by_cases h10 : n < 10
  · have h0 : n / 10 = 0 := by omega
    have hm : n % 10 = n := by omega
    rw [fmt.uintDigits_one n h10, h0, hm]
    simp [List.replicate]
  · rw [fmt.uintDigits_two n (by omega) h]
    simp

/-- A four-digit field. -/
theorem appendInt_four (b : List Char) (n : Nat) (h : n < 10000) :
    appendInt b (n : Int) 4 =
      b ++ [Char.ofNat (48 + n / 1000), Char.ofNat (48 + n / 100 % 10),
        Char.ofNat (48 + n / 10 % 10), Char.ofNat (48 + n % 10)] := by
  have hneg : ¬ ((n : Int) < 0) := by omega
  unfold appendInt
  simp only [hneg, if_false, Int.natAbs_ofNat]
  by_cases h10 : n < 10
  · have e1 : n / 1000 = 0 := by omega
    have e2 : n / 100 % 10 = 0 := by omega
    have e3 : n / 10 % 10 = 0 := by omega
    have e4 : n % 10 = n := by omega
    rw [fmt.uintDigits_one n h10, e1, e2, e3, e4]
    simp [List.replicate]
  · by_cases h100 : n < 100
    · have e1 : n / 1000 = 0 := by omega
      have e2 : n / 100 % 10 = 0 := by omega
      have e3 : n / 10 % 10 = n / 10 := by omega
      rw [fmt.uintDigits_two n (by omega) h100, e1, e2, e3]
      simp [List.replicate]
    · by_cases h1000 : n < 1000
      · have e1 : n / 1000 = 0 := by omega
        have e2 : n / 100 % 10 = n / 100 := by omega
        rw [fmt.uintDigits_three n (by omega) h1000, e1, e2]
        simp [List.replicate]
      · rw [fmt.uintDigits_four n (by omega) h]
        simp

end time

/-! ## Calendar arithmetic -/

namespace time

theorem isLeap_iff (year : Int) :
    isLeap year = true ↔ year % 4 = 0 ∧ (year % 100 ≠ 0 ∨ year % 400 = 0) := by
  have t4 : year.tmod 4 = 0 ↔ year % 4 = 0 := by
    rw [← Int.dvd_iff_tmod_eq_zero, ← Int.dvd_iff_emod_eq_zero]
  have t100 : year.tmod 100 = 0 ↔ year % 100 = 0 := by
    rw [← Int.dvd_iff_tmod_eq_zero, ← Int.dvd_iff_emod_eq_zero]
  have t400 : year.tmod 400 = 0 ↔ year % 400 = 0 := by
    rw [← Int.dvd_iff_tmod_eq_zero, ← Int.dvd_iff_emod_eq_zero]
  simp [isLeap, t4, t100, t400]

theorem absClock_bounds (abs : Nat) :
    (absClock abs).hour < 24 ∧ (absClock abs).min < 60 ∧ (absClock abs).sec < 60 := by
  simp only [absClock, secondsPerDay, secondsPerHour, secondsPerMinute]
  omega

/-- The day of the year left by the cycle cuts is at most 365, and it is 365
only in a leap year. -/
theorem cycles_yday (d n₁ d₁ n₂ d₂ n₃ d₃ n₄ d₄ y : Nat)
    (e₁ : n₁ = d / daysPer400Years) (e₂ : d₁ = d - daysPer400Years * n₁)
    (e₃ : n₂ = d₁ / daysPer100Years - (d₁ / daysPer100Years) >>> 2)
    (e₄ : d₂ = d₁ - daysPer100Years * n₂)
    (e₅ : n₃ = d₂ / daysPer4Years) (e₆ : d₃ = d₂ - daysPer4Years * n₃)
    (e₇ : n₄ = d₃ / 365 - (d₃ / 365) >>> 2) (e₈ : d₄ = d₃ - 365 * n₄)
    (e₉ : y = 400 * n₁ + 100 * n₂ + 4 * n₃ + n₄) :
    d₄ ≤ 365 ∧ (d₄ = 365 → isLeap ((y : Int) + absoluteZeroYear) = true) := by
  simp only [daysPer400Years, daysPer100Years, daysPer4Years, Nat.shiftRight_eq_div_pow,
    Nat.reducePow, Nat.reduceMul, Nat.reduceAdd] at e₁ e₂ e₃ e₄ e₅ e₆ e₇ e₈
  have h₁ : d₁ < 146097 := by omega
  have h₂ : n₂ ≤ 3 := by omega
  have h₃ : d₂ ≤ 36524 := by omega
  have h₄ : n₃ ≤ 24 := by omega
  have h₅ : d₃ ≤ 1460 := by omega
  have h₆ : n₄ ≤ 3 := by omega
  refine ⟨by omega, fun h => ?_⟩
  have h₇ : n₄ = 3 := by omega
  have h₈ : n₃ = 24 → n₂ = 3 := by omega
  rw [isLeap_iff]
  subst e₉
  simp only [absoluteZeroYear]
  omega

theorem monthDay_bounds (year : Int) (yday day : Nat) (h : day ≤ 364) :
    1 ≤ (monthDay year yday day).month ∧ (monthDay year yday day).month ≤ 12 ∧
      1 ≤ (monthDay year yday day).day ∧ (monthDay year yday day).day ≤ 31 := by
  have hm : day / 31 < 12 := by omega
  unfold monthDay
  generalize hq : day / 31 = m at hm ⊢
  interval_cases m <;> simp [daysBefore] <;> split <;> simp <;> omega

theorem absDate_bounds (abs : Nat) :
    1 ≤ (absDate abs).month ∧ (absDate abs).month ≤ 12 ∧
      1 ≤ (absDate abs).day ∧ (absDate abs).day ≤ 31 := by
  obtain ⟨d, hd⟩ : ∃ d, d = abs / secondsPerDay := ⟨_, rfl⟩
  obtain ⟨n₁, e₁⟩ : ∃ n₁, n₁ = d / daysPer400Years := ⟨_, rfl⟩
  obtain ⟨d₁, e₂⟩ : ∃ d₁, d₁ = d - daysPer400Years * n₁ := ⟨_, rfl⟩
  obtain ⟨n₂, e₃⟩ : ∃ n₂, n₂ = d₁ / daysPer100Years - (d₁ / daysPer100Years) >>> 2 :=
    ⟨_, rfl⟩
  obtain ⟨d₂, e₄⟩ : ∃ d₂, d₂ = d₁ - daysPer100Years * n₂ := ⟨_, rfl⟩
  obtain ⟨n₃, e₅⟩ : ∃ n₃, n₃ = d₂ / daysPer4Years := ⟨_, rfl⟩
  obtain ⟨d₃, e₆⟩ : ∃ d₃, d₃ = d₂ - daysPer4Years * n₃ := ⟨_, rfl⟩
  obtain ⟨n₄, e₇⟩ : ∃ n₄, n₄ = d₃ / 365 - (d₃ / 365) >>> 2 := ⟨_, rfl⟩
  obtain ⟨d₄, e₈⟩ : ∃ d₄, d₄ = d₃ - 365 * n₄ := ⟨_, rfl⟩
  obtain ⟨y, e₉⟩ : ∃ y, y = 400 * n₁ + 100 * n₂ + 4 * n₃ + n₄ := ⟨_, rfl⟩
  obtain ⟨hle, hleap⟩ := cycles_yday d n₁ d₁ n₂ d₂ n₃ d₃ n₄ d₄ y e₁ e₂ e₃ e₄ e₅ e₆ e₇ e₈ e₉
  unfold absDate
  simp only []
  rw [← hd, ← e₁, ← e₂, ← e₃, ← e₄, ← e₅, ← e₆, ← e₇, ← e₈, ← e₉]
  clear e₉ e₈ e₇ e₆ e₅ e₄ e₃ e₂ e₁ hd
  split_ifs with h₁ h₂ h₃
  · exact monthDay_bounds _ _ _ (show d₄ - 1 ≤ 364 by omega)
  · simp
  · exact monthDay_bounds _ _ _ (show d₄ ≤ 364 by omega)
  · have hne : d₄ ≠ 365 := fun h => h₁ (hleap h)
    exact monthDay_bounds _ _ _ (show d₄ ≤ 364 by omega)

end time

/-! ## The two renderings of a date -/

theorem pad2_isDigit (n : Nat) (h : n < 100) : ∀ c ∈ pad2 n, c.isDigit = true := by
  intro c hc
  simp only [pad2, List.mem_cons, List.mem_singleton, List.not_mem_nil, or_false] at hc
  rcases hc with rfl | rfl
  · exact fmt.digit_isDigit _ (by omega)
  · exact fmt.digit_isDigit _ (by omega)

theorem pad4_isDigit (n : Nat) (h : n < 10000) : ∀ c ∈ pad4 n, c.isDigit = true := by
  intro c hc
  simp only [pad4, List.mem_cons, List.mem_singleton, List.not_mem_nil, or_false] at hc
  rcases hc with rfl | rfl | rfl | rfl
  · exact fmt.digit_isDigit _ (by omega)
  · exact fmt.digit_isDigit _ (by omega)
  · exact fmt.digit_isDigit _ (by omega)
  · exact fmt.digit_isDigit _ (by omega)

theorem calendarRange_all (t : time.Time) : calendarRange t := by
  obtain ⟨h₁, h₂, h₃, h₄⟩ := time.absDate_bounds t.abs
  obtain ⟨h₅, h₆, h₇⟩ := time.absClock_bounds t.abs
  exact ⟨h₁, h₂, h₃, h₄, by omega, by omega, by omega⟩

namespace time

theorem appendInt_pad2 (b : List Char) (n : Nat) (h : n < 100) :
    appendInt b (n : Int) 2 = b ++ pad2 n :=
  appendInt_two b n h

theorem appendInt_pad4 (b : List Char) (x : Int) (h₀ : 0 ≤ x) (h : x ≤ 9999) :
    appendInt b x 4 = b ++ pad4 x.toNat := by
  obtain ⟨n, rfl⟩ := Int.eq_ofNat_of_zero_le h₀
  rw [Int.toNat_ofNat]
  exact appendInt_four b n (by omega)

theorem Format_default_eq (t : Time) :
    t.Format "2006-01-02 15:04:05" =
      ⟨appendInt (appendInt (appendInt (appendInt (appendInt (appendInt []
        (absDate t.abs).year 4 ++ ['-']) (absDate t.abs).month 2 ++ ['-'])
        (absDate t.abs).day 2 ++ [' ']) (absClock t.abs).hour 2 ++ [':'])
        (absClock t.abs).min 2 ++ [':']) (absClock t.abs).sec 2⟩ := by
  rfl

theorem Format_default_text (t : Time) (h₀ : 0 ≤ t.Year) (h : t.Year ≤ 9999) :
    t.Format "2006-01-02 15:04:05" = ⟨dateTimeText ' ' t⟩ := by
  obtain ⟨-, hm, -, hd, hh, hn, hs⟩ := calendarRange_all t
  have hy₀ : 0 ≤ (absDate t.abs).year := h₀
  have hy : (absDate t.abs).year ≤ 9999 := h
  rw [Format_default_eq, appendInt_pad4 _ _ hy₀ hy, appendInt_pad2 _ _ (by omega),
    appendInt_pad2 _ _ (by omega), appendInt_pad2 _ _ (by omega),
    appendInt_pad2 _ _ (by omega), appendInt_pad2 _ _ (by omega)]
  simp [dateTimeText, Time.Year]

theorem zone_abs (z : Int) : (if z < 0 then -z else z) = (z.natAbs : Int) := by
  split <;> omega

theorem appendFormatRFC3339_text (t : Time) (h₀ : 0 ≤ t.Year) (h : t.Year ≤ 9999)
    (hz₀ : -360000 < t.offset) (hz : t.offset < 360000) :
    appendFormatRFC3339 t [] = dateTimeText 'T' t ++ zoneText t.offset := by
  obtain ⟨-, hm, -, hd, hh, hn, hs⟩ := calendarRange_all t
  have hq : (t.offset.tdiv 60).natAbs = t.offset.natAbs / 60 := Int.natAbs_tdiv _ _
  have hq' : (t.offset.tdiv 60).natAbs < 6000 := by omega
  unfold appendFormatRFC3339
  have hy₀ : 0 ≤ (absDate t.abs).year := h₀
  have hy : (absDate t.abs).year ≤ 9999 := h
  simp only [zone_abs]
  rw [appendInt_pad4 _ _ hy₀ hy, appendInt_pad2 _ _ (by omega),
    appendInt_pad2 _ _ (by omega), appendInt_pad2 _ _ (by omega),
    appendInt_pad2 _ _ (by omega), appendInt_pad2 _ _ (by omega)]
  by_cases h0 : t.offset = 0
  · simp [h0, dateTimeText, zoneText, Time.Year]
  · have e₁ : ((t.offset.tdiv 60).natAbs : Int).tdiv 60 =
        (((t.offset.tdiv 60).natAbs / 60 : Nat) : Int) := (Int.ofNat_tdiv _ _).symm
    have e₂ : ((t.offset.tdiv 60).natAbs : Int).tmod 60 =
        (((t.offset.tdiv 60).natAbs % 60 : Nat) : Int) := (Int.ofNat_tmod _ _).symm
    simp only [h0, if_false]
    rw [e₁, e₂, appendInt_pad2 _ _ (by omega), appendInt_pad2 _ _ (by omega)]
    simp [-Int.natAbs_tdiv, dateTimeText, zoneText, Time.Year, h0]

end time

theorem dateTimeText_form (t : time.Time) (h₀ : 0 ≤ t.Year) (h : t.Year ≤ 9999) :
    isDateTime (dateTimeText ' ' t) = true := by
  obtain ⟨-, hm, -, hd, hh, hn, hs⟩ := calendarRange_all t
  have hy := pad4_isDigit t.Year.toNat (by omega)
  have h₁ := pad2_isDigit (time.absDate t.abs).month (by omega)
  have h₂ := pad2_isDigit (time.absDate t.abs).day (by omega)
  have h₃ := pad2_isDigit (time.absClock t.abs).hour (by omega)
  have h₄ := pad2_isDigit (time.absClock t.abs).min (by omega)
  have h₅ := pad2_isDigit (time.absClock t.abs).sec (by omega)
  simp only [pad2, pad4, List.mem_cons, List.mem_singleton, List.not_mem_nil, or_false,
    forall_eq_or_imp, forall_eq] at hy h₁ h₂ h₃ h₄ h₅
  simp [dateTimeText, pad2, pad4, isDateTime, hy, h₁, h₂, h₃, h₄, h₅]

theorem dateTimeText_length (sep : Char) (t : time.Time) : (dateTimeText sep t).length = 19 := by
  simp [dateTimeText, pad2, pad4]

theorem rfc3339Text_form (t : time.Time) (h₀ : 0 ≤ t.Year) (h : t.Year ≤ 9999)
    (hz₀ : -360000 < t.offset) (hz : t.offset < 360000) :
    isRFC3339 (dateTimeText 'T' t ++ zoneText t.offset) = true := by
  obtain ⟨-, hm, -, hd, hh, hn, hs⟩ := calendarRange_all t
  have hq : (t.offset.tdiv 60).natAbs = t.offset.natAbs / 60 := Int.natAbs_tdiv _ _
  have hy := pad4_isDigit t.Year.toNat (by omega)
  have h₁ := pad2_isDigit (time.absDate t.abs).month (by omega)
  have h₂ := pad2_isDigit (time.absDate t.abs).day (by omega)
  have h₃ := pad2_isDigit (time.absClock t.abs).hour (by omega)
  have h₄ := pad2_isDigit (time.absClock t.abs).min (by omega)
  have h₅ := pad2_isDigit (time.absClock t.abs).sec (by omega)
  have h₆ := pad2_isDigit ((t.offset.tdiv 60).natAbs / 60) (by omega)
  have h₇ := pad2_isDigit ((t.offset.tdiv 60).natAbs % 60) (by omega)
  simp only [pad2, pad4, List.mem_cons, List.mem_singleton, List.not_mem_nil, or_false,
    forall_eq_or_imp, forall_eq] at hy h₁ h₂ h₃ h₄ h₅ h₆ h₇
  by_cases h0 : t.offset = 0
  · simp [dateTimeText, zoneText, pad2, pad4, isRFC3339, hy, h₁, h₂, h₃, h₄, h₅, h0]
  · by_cases hneg : t.offset.tdiv 60 < 0
    · simp [-Int.natAbs_tdiv, dateTimeText, zoneText, pad2, pad4, isRFC3339, hy, h₁, h₂, h₃,
        h₄, h₅, h₆, h₇, h0, hneg]
    · simp [-Int.natAbs_tdiv, dateTimeText, zoneText, pad2, pad4, isRFC3339, hy, h₁, h₂, h₃,
        h₄, h₅, h₆, h₇, h0, hneg]

/-! ## Validity of the RFC 3339 rendering -/

namespace time

theorem monthDay_year (year : Int) (yday day : Nat) : (monthDay year yday day).year = year := by
  unfold monthDay
  simp only []
  split <;> rfl

theorem monthDay_day_le (year : Int) (yday day : Nat) (h : day ≤ 364) :
    (monthDay year yday day).day ≤ daysIn false (monthDay year yday day).month := by
  have hm : day / 31 < 12 := by omega
  unfold monthDay
  generalize hq : day / 31 = m at hm ⊢
  interval_cases m <;> simp [daysBefore, daysIn] <;> split <;> simp <;> omega

theorem daysIn_mono (leap : Bool) (month : Nat) : daysIn false month ≤ daysIn leap month := by
  unfold daysIn
  cases leap <;> simp
  split <;> omega

/-- The day of the month exists in its month: at most 28, 29, 30 or 31 by the
month and the leap rule. -/
theorem absDate_day_le (abs : Nat) :
    (absDate abs).day ≤ daysIn (isLeap (absDate abs).year) (absDate abs).month := by
  obtain ⟨d, hd⟩ : ∃ d, d = abs / secondsPerDay := ⟨_, rfl⟩
  obtain ⟨n₁, e₁⟩ : ∃ n₁, n₁ = d / daysPer400Years := ⟨_, rfl⟩
  obtain ⟨d₁, e₂⟩ : ∃ d₁, d₁ = d - daysPer400Years * n₁ := ⟨_, rfl⟩
  obtain ⟨n₂, e₃⟩ : ∃ n₂, n₂ = d₁ / daysPer100Years - (d₁ / daysPer100Years) >>> 2 :=
    ⟨_, rfl⟩
  obtain ⟨d₂, e₄⟩ : ∃ d₂, d₂ = d₁ - daysPer100Years * n₂ := ⟨_, rfl⟩
  obtain ⟨n₃, e₅⟩ : ∃ n₃, n₃ = d₂ / daysPer4Years := ⟨_, rfl⟩
  obtain ⟨d₃, e₆⟩ : ∃ d₃, d₃ = d₂ - daysPer4Years * n₃ := ⟨_, rfl⟩
  obtain ⟨n₄, e₇⟩ : ∃ n₄, n₄ = d₃ / 365 - (d₃ / 365) >>> 2 := ⟨_, rfl⟩
  obtain ⟨d₄, e₈⟩ : ∃ d₄, d₄ = d₃ - 365 * n₄ := ⟨_, rfl⟩
  obtain ⟨y, e₉⟩ : ∃ y, y = 400 * n₁ + 100 * n₂ + 4 * n₃ + n₄ := ⟨_, rfl⟩
  obtain ⟨hle, hleap⟩ := cycles_yday d n₁ d₁ n₂ d₂ n₃ d₃ n₄ d₄ y e₁ e₂ e₃ e₄ e₅ e₆ e₇ e₈ e₉
  unfold absDate
  simp only []
  rw [← hd, ← e₁, ← e₂, ← e₃, ← e₄, ← e₅, ← e₆, ← e₇, ← e₈, ← e₉]
  clear e₉ e₈ e₇ e₆ e₅ e₄ e₃ e₂ e₁ hd
  split_ifs with h₁ h₂ h₃
  · rw [monthDay_year]
    exact le_trans (monthDay_day_le _ _ _ (show d₄ - 1 ≤ 364 by omega)) (daysIn_mono _ _)
  · simp [h₁, daysIn]
  · rw [monthDay_year]
    exact le_trans (monthDay_day_le _ _ _ (show d₄ ≤ 364 by omega)) (daysIn_mono _ _)
  · have hne : d₄ ≠ 365 := fun h => h₁ (hleap h)
    rw [monthDay_year]
    exact le_trans (monthDay_day_le _ _ _ (show d₄ ≤ 364 by omega)) (daysIn_mono _ _)

theorem isLeap_ofNat (n : Nat) : isLeap (n : Int) = leapYear n := by
  rw [Bool.eq_iff_iff, isLeap_iff]
  simp only [leapYear, Bool.and_eq_true, Bool.or_eq_true, beq_iff_eq, bne_iff_ne, ne_eq]
  omega

end time

theorem decimalValue_pad2 (n : Nat) (h : n < 100) : decimalValue (pad2 n) = n := by
  simp only [decimalValue, pad2, List.foldl_cons, List.foldl_nil]
  rw [fmt.digit_toNat _ (show n / 10 < 10 by omega),
    fmt.digit_toNat _ (show n % 10 < 10 by omega)]
  omega

theorem decimalValue_pad4 (n : Nat) (h : n < 10000) : decimalValue (pad4 n) = n := by
  simp only [decimalValue, pad4, List.foldl_cons, List.foldl_nil]
  rw [fmt.digit_toNat _ (show n / 1000 < 10 by omega),
    fmt.digit_toNat _ (show n / 100 % 10 < 10 by omega),
    fmt.digit_toNat _ (show n / 10 % 10 < 10 by omega),
    fmt.digit_toNat _ (show n % 10 < 10 by omega)]
  omega

theorem zoneText_valid (offset : Int) (hz₀ : -86400 < offset) (hz₁ : offset < 86400) :
    (zoneText offset == ['Z'] ||
      (decide (decimalValue (((zoneText offset).drop 1).take 2) ≤ 23) &&
        decide (decimalValue (((zoneText offset).drop 4).take 2) ≤ 59))) = true := by
  have hq : (offset.tdiv 60).natAbs = offset.natAbs / 60 := Int.natAbs_tdiv _ _
  by_cases h0 : offset = 0
  · subst h0
    rfl
  · have e₁ : ((zoneText offset).drop 1).take 2 = pad2 ((offset.tdiv 60).natAbs / 60) := by
      simp only [zoneText, h0, if_false]
      rfl
    have e₂ : ((zoneText offset).drop 4).take 2 = pad2 ((offset.tdiv 60).natAbs % 60) := by
      simp only [zoneText, h0, if_false]
      rfl
    rw [e₁, e₂, decimalValue_pad2 _ (by omega), decimalValue_pad2 _ (by omega)]
    have b₁ : (offset.tdiv 60).natAbs / 60 ≤ 23 := by omega
    have b₂ : (offset.tdiv 60).natAbs % 60 ≤ 59 := by omega
    simp only [b₁, b₂, decide_True, Bool.and_self, Bool.or_true]

theorem rfc3339Text_valid (t : time.Time) (h₀ : 0 ≤ t.Year) (h : t.Year ≤ 9999)
    (hz₀ : -86400 < t.offset) (hz₁ : t.offset < 86400) :
    isValidRFC3339 (dateTimeText 'T' t ++ zoneText t.offset) = true := by
  obtain ⟨hm₁, hm, hd₁, hd, hh, hn, hs⟩ := calendarRange_all t
  have hform := rfc3339Text_form t h₀ h (by omega) (by omega)
  have hzone := zoneText_valid t.offset hz₀ hz₁
  have hday := time.absDate_day_le t.abs
  have hyear : (time.absDate t.abs).year = ((t.Year.toNat : Nat) : Int) := by
    show t.Year = _
    omega
  rw [hyear, time.isLeap_ofNat] at hday
  have e₁ : (dateTimeText 'T' t ++ zoneText t.offset).take 4 = pad4 t.Year.toNat := rfl
  have e₂ : ((dateTimeText 'T' t ++ zoneText t.offset).drop 5).take 2 =
      pad2 (time.absDate t.abs).month := rfl
  have e₃ : ((dateTimeText 'T' t ++ zoneText t.offset).drop 8).take 2 =
      pad2 (time.absDate t.abs).day := rfl
  have e₄ : ((dateTimeText 'T' t ++ zoneText t.offset).drop 11).take 2 =
      pad2 (time.absClock t.abs).hour := rfl
  have e₅ : ((dateTimeText 'T' t ++ zoneText t.offset).drop 14).take 2 =
      pad2 (time.absClock t.abs).min := rfl
  have e₆ : ((dateTimeText 'T' t ++ zoneText t.offset).drop 17).take 2 =
      pad2 (time.absClock t.abs).sec := rfl
  have e₇ : (dateTimeText 'T' t ++ zoneText t.offset).drop 19 = zoneText t.offset := rfl
  unfold isValidRFC3339
  simp only [e₁, e₂, e₃, e₄, e₅, e₆, e₇]
  rw [decimalValue_pad4 _ (by omega), decimalValue_pad2 _ (show _ < 100 by omega),
    decimalValue_pad2 _ (show (time.absDate t.abs).day < 100 by omega),
    decimalValue_pad2 _ (show (time.absClock t.abs).hour < 100 by omega),
    decimalValue_pad2 _ (show (time.absClock t.abs).min < 100 by omega),
    decimalValue_pad2 _ (show (time.absClock t.abs).sec < 100 by omega)]
  simp only [hform, hzone, hm₁, hm, hd₁, hday, hh, hn, hs, decide_True, Bool.and_self]

/-! ## Claims -/

/-- C1: for every name, `SayHello` with language `english` succeeds with exactly
one text segment, `Hello, ` followed by the name and `!`; the name `Alice`
gives `Hello, Alice!`. -/
theorem SayHello_english (name : String) :
    SayHello (helloCall name "english") = oneText ("Hello, " ++ name ++ "!") ∧
      SayHello (helloCall "Alice" "english") = oneText "Hello, Alice!" :=
  ⟨SayHello_english_eq name, rfl⟩

/-- C2: for every name, `SayHello` with the language absent succeeds with
exactly one text segment, the japanese greeting around the name; the name
`太郎` gives `こんにちは、太郎さん！`. -/
theorem SayHello_language_absent (name : String) :
    SayHello (helloCall name "") = oneText ("こんにちは、" ++ name ++ "さん！") ∧
      SayHello (helloCall "太郎" "") = oneText "こんにちは、太郎さん！" :=
  ⟨SayHello_absent_eq name, rfl⟩

/-- C3: for every name and every language other than `english`, `SayHello`
returns what it returns for that name with the language absent, which is the
japanese template. -/
theorem SayHello_fallback (name language : String) (h : language ≠ "english") :
    SayHello (helloCall name language) = SayHello (helloCall name "") ∧
      SayHello (helloCall name language) = oneText ("こんにちは、" ++ name ++ "さん！") := by
  rw [SayHello_other_eq name language h, SayHello_absent_eq]
  exact ⟨rfl, rfl⟩

theorem SayHello_fallback_witness :
    "English" ≠ "english" ∧
      SayHello (helloCall "Alice" "English") = SayHello (helloCall "Alice" "") ∧
      SayHello (helloCall "Alice" "English") =
        oneText ("こんにちは、" ++ "Alice" ++ "さん！") :=
  ⟨by decide, SayHello_fallback "Alice" "English" (by decide)⟩

/-- C4: for every name and every language, `SayHello` returns no error and a
result with exactly one text segment, and the name is a contiguous part of
that segment. -/
theorem SayHello_contains_name (name language : String) :
    ∃ text before after : String,
      SayHello (helloCall name language) = oneText text ∧ text = before ++ name ++ after := by
  by_cases h : language = "english"
  · subst h
    exact ⟨_, "Hello, ", "!", SayHello_english_eq name, rfl⟩
  · exact ⟨_, "こんにちは、", "さん！", SayHello_other_eq name language h, rfl⟩

/-- C5, as stated, fails: at the clock reading 1700000000 the text returned for
`unix` is not a string of digits only, because of the label in front; and one
second before the epoch the text after the label is `-1`. -/
theorem GetTime_unix_not_decimal :
    GetTime { unixSec := 1700000000, offset := 0 } (timeCall "unix") =
        oneText "現在時刻: 1700000000" ∧
      isDecimal "現在時刻: 1700000000".data = false ∧
      GetTime { unixSec := -1, offset := 0 } (timeCall "unix") = oneText "現在時刻: -1" ∧
      isDecimal "-1".data = false := by
  refine ⟨?_, by decide, ?_, by decide⟩
  · rw [GetTime_unix_eq]
    exact congrArg oneText (by decide)
  · rw [GetTime_unix_eq]
    exact congrArg oneText (by decide)

/-- C5, amended: for every clock reading at or after the epoch, `GetTime` with
format `unix` returns exactly one text segment, the label `現在時刻: ` followed
by a non-empty string of decimal digits that denotes the seconds since the
epoch. -/
theorem GetTime_unix (now : time.Time) (h : 0 ≤ now.Unix) :
    ∃ digits : List Char,
      GetTime now (timeCall "unix") = oneText (timeLabel ++ ⟨digits⟩) ∧
        isDecimal digits = true ∧ (decimalValue digits : Int) = now.Unix := by
  refine ⟨fmt.uintDigits now.Unix.natAbs, ?_, isDecimal_uintDigits _, ?_⟩
  · rw [GetTime_unix_eq]
    have hneg : ¬ now.Unix < 0 := by omega
    simp [fmt.intDigits, hneg]
  · rw [decimalValue_uintDigits]
    omega

theorem GetTime_unix_witness :
    (0 : Int) ≤ time.Time.Unix { unixSec := 1700000000, offset := 32400 } ∧
      ∃ digits : List Char,
        GetTime { unixSec := 1700000000, offset := 32400 } (timeCall "unix") =
          oneText (timeLabel ++ ⟨digits⟩) ∧
        isDecimal digits = true ∧
        (decimalValue digits : Int) =
          time.Time.Unix { unixSec := 1700000000, offset := 32400 } :=
  ⟨by decide, GetTime_unix { unixSec := 1700000000, offset := 32400 } (by decide)⟩

/-- C6, as stated, fails: the text returned for `rfc3339` starts with the
label, so the whole text is not an RFC 3339 timestamp; in the year 10000 the
year field has five digits; and with a zone offset of 24 hours the offset
reads `+24:00`, which has the form but is not a valid offset. -/
theorem GetTime_rfc3339_not_timestamp :
    GetTime { unixSec := 1700000000, offset := 0 } (timeCall "rfc3339") =
        oneText "現在時刻: 2023-11-14T22:13:20Z" ∧
      isRFC3339 "現在時刻: 2023-11-14T22:13:20Z".data = false ∧
      isValidRFC3339 "現在時刻: 2023-11-14T22:13:20Z".data = false ∧
      GetTime { unixSec := 253402300800, offset := 0 } (timeCall "rfc3339") =
        oneText "現在時刻: 10000-01-01T00:00:00Z" ∧
      isRFC3339 "10000-01-01T00:00:00Z".data = false ∧
      GetTime { unixSec := 1700000000, offset := 86400 } (timeCall "rfc3339") =
        oneText "現在時刻: 2023-11-15T22:13:20+24:00" ∧
      isValidRFC3339 "2023-11-15T22:13:20+24:00".data = false := by
  refine ⟨?_, by decide, by decide, ?_, by decide, ?_, by decide⟩
  · rw [GetTime_rfc3339_eq]
    exact congrArg oneText (by decide)
  · rw [GetTime_rfc3339_eq]
    exact congrArg oneText (by decide)
  · rw [GetTime_rfc3339_eq]
    exact congrArg oneText (by decide)

/-- C6, amended: for every clock reading whose year is in 0..9999 and whose
zone offset is less than 24 hours in magnitude, `GetTime` with format
`rfc3339` returns exactly one text segment, the label `現在時刻: ` followed by a
valid RFC 3339 timestamp: a string of the form `YYYY-MM-DDTHH:MM:SS` and then
`Z` or a `±HH:MM` offset, with month 01-12, a day that exists in that month of
that year, hour 00-23, minute and second 00-59, offset hour 00-23 and offset
minute 00-59.  That string is the zero-padded local date and time of the clock
reading followed by its zone designator. -/
theorem GetTime_rfc3339 (now : time.Time) (h₀ : 0 ≤ now.Year) (h₁ : now.Year ≤ 9999)
    (hz₀ : -86400 < now.offset) (hz₁ : now.offset < 86400) :
    ∃ stamp : List Char,
      GetTime now (timeCall "rfc3339") = oneText (timeLabel ++ ⟨stamp⟩) ∧
        isRFC3339 stamp = true ∧ isValidRFC3339 stamp = true ∧
        stamp = dateTimeText 'T' now ++ zoneText now.offset ∧ calendarRange now := by
  refine ⟨_, ?_, rfc3339Text_form now h₀ h₁ (by omega) (by omega),
    rfc3339Text_valid now h₀ h₁ hz₀ hz₁, rfl, calendarRange_all now⟩
  rw [GetTime_rfc3339_eq, time.appendFormatRFC3339_text now h₀ h₁ (by omega) (by omega)]

theorem GetTime_rfc3339_witness :
    (0 : Int) ≤ time.Time.Year { unixSec := 951782400, offset := 32400 } ∧
      time.Time.Year { unixSec := 951782400, offset := 32400 } ≤ 9999 ∧
      (-86400 : Int) < 32400 ∧ (32400 : Int) < 86400 ∧
      ∃ stamp : List Char,
        GetTime { unixSec := 951782400, offset := 32400 } (timeCall "rfc3339") =
          oneText (timeLabel ++ ⟨stamp⟩) ∧
        isRFC3339 stamp = true ∧ isValidRFC3339 stamp = true ∧
        stamp = dateTimeText 'T' { unixSec := 951782400, offset := 32400 } ++ zoneText 32400 ∧
        calendarRange { unixSec := 951782400, offset := 32400 } :=
  ⟨by decide, by decide, by decide, by decide,
    GetTime_rfc3339 { unixSec := 951782400, offset := 32400 } (by decide) (by decide)
      (by decide) (by decide)⟩

/-- C8: for every clock reading and every format string, `GetTime` returns no
error and a result with exactly one text segment. -/
theorem GetTime_one_segment (now : time.Time) (format : String) :
    ∃ text : String, GetTime now (timeCall format) = oneText text :=
  ⟨_, rfl⟩

/-- C9: for every clock reading whose year is in 0..9999, `GetTime` with the
format absent or `default` renders the time as the zero-padded 19-character
string `YYYY-MM-DD HH:MM:SS` behind the label, so the returned text has the
same length, 25 characters, for every such clock reading. -/
theorem GetTime_default_fixed_width (now : time.Time) (h₀ : 0 ≤ now.Year)
    (h₁ : now.Year ≤ 9999) :
    GetTime now (timeCall "") = oneText (timeLabel ++ ⟨dateTimeText ' ' now⟩) ∧
      GetTime now (timeCall "default") = oneText (timeLabel ++ ⟨dateTimeText ' ' now⟩) ∧
      isDateTime (dateTimeText ' ' now) = true ∧
      (dateTimeText ' ' now).length = 19 ∧
      (timeLabel ++ ⟨dateTimeText ' ' now⟩).length = 25 := by
  have e : now.Format "2006-01-02 15:04:05" = ⟨dateTimeText ' ' now⟩ :=
    time.Format_default_text now h₀ h₁
  refine ⟨?_, ?_, dateTimeText_form now h₀ h₁, dateTimeText_length ' ' now, ?_⟩
  · rw [GetTime_other_eq now "" (by decide) (by decide), e]
  · rw [GetTime_other_eq now "default" (by decide) (by decide), e]
  · rw [String.length_append]
    show timeLabel.length + (dateTimeText ' ' now).length = 25
    rw [dateTimeText_length]
    rfl

theorem GetTime_default_fixed_width_witness :
    (0 : Int) ≤ time.Time.Year { unixSec := 951782400, offset := -18000 } ∧
      time.Time.Year { unixSec := 951782400, offset := -18000 } ≤ 9999 ∧
      GetTime { unixSec := 951782400, offset := -18000 } (timeCall "") =
        oneText (timeLabel ++ ⟨dateTimeText ' ' { unixSec := 951782400, offset := -18000 }⟩) ∧
      GetTime { unixSec := 951782400, offset := -18000 } (timeCall "default") =
        oneText (timeLabel ++ ⟨dateTimeText ' ' { unixSec := 951782400, offset := -18000 }⟩) ∧
      isDateTime (dateTimeText ' ' { unixSec := 951782400, offset := -18000 }) = true ∧
      (dateTimeText ' ' { unixSec := 951782400, offset := -18000 }).length = 19 ∧
      (timeLabel ++ ⟨dateTimeText ' ' { unixSec := 951782400, offset := -18000 }⟩).length = 25 :=
  ⟨by decide, by decide,
    GetTime_default_fixed_width { unixSec := 951782400, offset := -18000 } (by decide)
      (by decide)⟩

/-- C10: for one clock reading, `GetTime` returns the same result for the
format absent, for `default`, and for every format other than `rfc3339` and
`unix`; the comparison of the format is case-sensitive. -/
theorem GetTime_fallback (now : time.Time) (format : String)
    (h₁ : format ≠ "rfc3339") (h₂ : format ≠ "unix") :
    GetTime now (timeCall format) = GetTime now (timeCall "") ∧
      GetTime now (timeCall "default") = GetTime now (timeCall "") := by
  rw [GetTime_other_eq now format h₁ h₂, GetTime_other_eq now "" (by decide) (by decide),
    GetTime_other_eq now "default" (by decide) (by decide)]
  exact ⟨rfl, rfl⟩

theorem GetTime_fallback_witness :
    "RFC3339" ≠ "rfc3339" ∧ "RFC3339" ≠ "unix" ∧
      GetTime { unixSec := 1700000000, offset := 0 } (timeCall "RFC3339") =
        GetTime { unixSec := 1700000000, offset := 0 } (timeCall "") ∧
      GetTime { unixSec := 1700000000, offset := 0 } (timeCall "default") =
        GetTime { unixSec := 1700000000, offset := 0 } (timeCall "") :=
  ⟨by decide, by decide,
    GetTime_fallback { unixSec := 1700000000, offset := 0 } "RFC3339" (by decide) (by decide)⟩
